import Mathlib

/-!
Verification of the pfs decoding-primitive core (`src/utils.cpp` and
`include/pfs/types.hpp`) against its natural-language specification.

Buffers are modelled as `String` (logically a `List Char`), machine
integers as `Nat`/`Int` with explicit range checks, fallible operations
as `Except`, and each OS interaction point as an explicit oracle
argument (`Except Int α`: either the errno of a failed system call or
the data a successful one would produce).
-/

namespace Pfs

instance {ε α : Type _} [DecidableEq ε] [DecidableEq α] : DecidableEq (Except ε α) :=
  fun x y =>
    match x, y with
    | .ok a, .ok b =>
        if h : a = b then .isTrue (by rw [h])
        else .isFalse (by intro he; cases he; exact h rfl)
    | .error a, .error b =>
        if h : a = b then .isTrue (by rw [h])
        else .isFalse (by intro he; cases he; exact h rfl)
    | .ok _, .error _ => .isFalse (by intro he; cases he)
    | .error _, .ok _ => .isFalse (by intro he; cases he)

/-- The failure classes raised by the core:
`systemError` models `std::system_error(errno, category, what)`,
`runtimeError` models `std::runtime_error(what)`,
`parserError` models `pfs::parser_error(what, offending_text)`, and
`invalidArgument` / `outOfRange` model `std::invalid_argument` /
`std::out_of_range` escaping from the numeric decoder. -/
inductive Error
  | systemError (code : Int) (what : String)
  | runtimeError (what : String)
  | parserError (what : String) (text : String)
  | invalidArgument (text : String)
  | outOfRange (text : String)
deriving DecidableEq, Repr

/-- `true` exactly when a failure payload carries an underlying OS error code. -/
def Error.carriesOsCode : Error → Bool
  | .systemError _ _ => true
  | _ => false

/-! ### Numeric decoder -/

/-- Value of `c` as a digit in base `b` (`0`-`9`, `a`-`f`, `A`-`F`),
`none` when `c` is outside the base-`b` alphabet. -/
def digitVal (b : Nat) (c : Char) : Option Nat :=
  if 48 ≤ c.toNat ∧ c.toNat ≤ 57 ∧ c.toNat - 48 < b then some (c.toNat - 48)
  else if 97 ≤ c.toNat ∧ c.toNat ≤ 102 ∧ c.toNat - 87 < b then some (c.toNat - 87)
  else if 65 ≤ c.toNat ∧ c.toNat ≤ 70 ∧ c.toNat - 55 < b then some (c.toNat - 55)
  else none

/-- Accumulate the base-`b` value of a digit string; `none` on the first
character outside the base's alphabet. -/
def parseNatCore (b : Nat) (acc : Nat) : List Char → Option Nat
  | [] => some acc
  | c :: rest =>
      match digitVal b c with
      | none => none
      | some d => parseNatCore b (acc * b + d) rest

/-- Base-`b` value of a non-empty all-digit string, `none` otherwise. -/
def parseNatBase (b : Nat) (l : List Char) : Option Nat :=
  match l with
  | [] => none
  | _ => parseNatCore b 0 l

/-- Modelled from the spec: `utils::stot` is declared in
`include/pfs/utils.hpp`, which is not part of the sources; the spec's
Numeric Decoder contract says it "fails with a malformed-data error
(distinct from an out-of-range error) when the token contains characters
outside the selected base's alphabet, and with an out-of-range error
when the parsed magnitude exceeds the target type's range".
`maxVal` is the range bound of the unsigned target type (the only
signedness the verified callers instantiate); an empty token has no
decodable magnitude and is malformed. -/
def stot (str : String) (b : Nat) (maxVal : Nat) : Except Error Nat :=
  match parseNatBase b str.data with
  | none => .error (.invalidArgument str)
  | some v => if maxVal < v then .error (.outOfRange str) else .ok v

/-- Range bound of `uint16_t` (the port type). -/
def u16max : Nat := 2 ^ 16 - 1

/-- Range bound of `uint32_t` (the `ipv4` type and the `ipv6` word type). -/
def u32max : Nat := 2 ^ 32 - 1

/-- Range bound of `uint64_t` (the memory-size magnitude type). -/
def u64max : Nat := 2 ^ 64 - 1

/-! ### Tokenizer -/

/-- Loop body of `utils::split`: `acc` holds `buffer[last..curr)`, the
characters seen since the last delimiter.  On a delimiter the current
token is emitted when it is non-empty or `keep_empty` is set; after the
loop the final token is emitted exactly when it is non-empty
(the `last < curr` check). -/
def splitGo (delim : Char) (keep_empty : Bool) (acc : List Char) :
    List Char → List (List Char)
  | [] => if acc.isEmpty then [] else [acc]
  | c :: rest =>
      if c = delim then
        (if !acc.isEmpty || keep_empty then [acc] else []) ++
          splitGo delim keep_empty [] rest
      else
        splitGo delim keep_empty (acc ++ [c]) rest

/-- `utils::split(buffer, delim, keep_empty)`. -/
def split (buffer : String) (delim : Char) (keep_empty : Bool) : List String :=
  (splitGo delim keep_empty [] buffer.data).map String.mk

/-- Modelled from the spec: joining a token sequence with the delimiter,
the re-joining operation of the spec's round-trip law ("`split` followed
by re-joining with the same delimiter reproduces the original"). -/
def joinWith (d : Char) : List (List Char) → List Char
  | [] => []
  | [t] => t
  | t :: ts => t ++ d :: joinWith d ts

/-- String-level wrapper of `joinWith`. -/
def joinStrings (d : Char) (ts : List String) : String :=
  ⟨joinWith d (ts.map String.data)⟩

/-- `std::string::substr(pos, len)` as used by `parse_ipv6_address`
(there `pos ≤ size()` always holds, so the throwing case of `substr`
is unreachable). -/
def substr (s : String) (pos len : Nat) : String :=
  ⟨(s.data.drop pos).take len⟩

/-- `std::string::resize`-style bounded prefix: the first `n` bytes of `s`. -/
def strTake (s : String) (n : Nat) : String :=
  ⟨s.data.take n⟩

/-- `utils::ensure_dir_terminator`.  The C++ reads `dir_path.back()`
unconditionally, which on the empty string is an out-of-bounds access
(undefined behavior), modelled as `none`. -/
def ensure_dir_terminator (dir_path : String) : Option String :=
  match dir_path.data.getLast? with
  | none => none
  | some c => if c ≠ '/' then some (dir_path ++ "/") else some dir_path

/-! ### Address and quantity decoders -/

/-- The `pfs::ip` record of `include/pfs/types.hpp`: a tagged union of an
IPv4 (one 32-bit word) and an IPv6 (four 32-bit words) address.  Its
constructor bodies live outside the sources; modelled from the spec:
"tagged union of IPv4 (32-bit) and IPv6 (four 32-bit words)
representations; invariant — the tag and the stored width are always
consistent; equality compares tag and full storage". -/
inductive ip
  | v4 (addr : Nat)
  | v6 (w0 w1 w2 w3 : Nat)
deriving DecidableEq, Repr

/-- The kernel's hex dump of an IPv4 address is its in-memory (native
little-endian) word value; the dotted quad `a.b.c.d` is stored with `a`
in the lowest-addressed byte. -/
def ipv4_of_octets (a b c d : Nat) : Nat :=
  a + 256 * (b + 256 * (c + 256 * d))

/-- `utils::parse_ipv4_address`: hex-decode the whole token into one
32-bit word. -/
def parse_ipv4_address (ip_address_str : String) : Except Error ip :=
  (stot ip_address_str 16 u32max).map ip.v4

/-- `utils::parse_ipv6_address`: hex-decode four consecutive 8-digit
groups into four 32-bit words, in textual order. -/
def parse_ipv6_address (ip_address_str : String) : Except Error ip := do
  let w0 ← stot (substr ip_address_str 0 8) 16 u32max
  let w1 ← stot (substr ip_address_str 8 8) 16 u32max
  let w2 ← stot (substr ip_address_str 16 8) 16 u32max
  let w3 ← stot (substr ip_address_str 24 8) 16 u32max
  .ok (ip.v6 w0 w1 w2 w3)

/-- `utils::parse_address`.  The call `utils::split(address_str, ':')`
uses the `keep_empty` default of the declaration in
`include/pfs/utils.hpp`, which is not part of the sources; modelled from
the spec: "fails with a parse error if the token does not have exactly
two colon-delimited parts" requires empty parts to count, i.e.
`keep_empty = true`.  A two-element token list is exactly
`tokens.size() == COUNT` with `COUNT = 2`. -/
def parse_address (address_str : String) : Except Error (ip × Nat) :=
  match split address_str ':' true with
  | [ip_str, port_str] =>
      (if ip_str.length = 8 then
        parse_ipv4_address ip_str
      else if ip_str.length = 4 * 8 then
        parse_ipv6_address ip_str
      else
        .error (.parserError "Corrupted net socket address - Bad length"
          address_str)).bind fun addr =>
        (stot port_str 16 u16max).map fun port => (addr, port)
  | _ =>
      .error (.parserError "Corrupted net socket address - Unexpected token counts"
        address_str)

/-- `utils::parse_memory_size`.  The call `utils::split(value)` uses the
defaults of the declaration in `include/pfs/utils.hpp`, which is not
part of the sources; modelled from the spec: "splits on whitespace"
fixes the delimiter to the space character, and "exactly a magnitude and
a unit token" keeps empty parts in the count as in `parse_address`.
`out` is a `uint64_t`; the magnitude is decoded in the decoder's default
decimal base. -/
def parse_memory_size (value : String) : Except Error Nat :=
  match split value ' ' true with
  | [size_str, _units_str] =>
      match stot size_str 10 u64max with
      | .ok v => .ok v
      | .error (.invalidArgument _) =>
          .error (.parserError "Corrupted memory size - Invalid argument" value)
      | .error (.outOfRange _) =>
          .error (.parserError "Corrupted memory size - Out of range" value)
      | .error e => .error e
  | _ =>
      .error (.parserError "Corrupted memory size - Unexpected tokens count"
        value)

/-! ### Filesystem access layer

Each function takes the outcome of its system calls as an oracle
argument: `.error e` is a failed call with errno `e`, `.ok x` is the
data a successful call produced. -/

/-- The dotfile filter of `utils::iterate_files`: an entry is kept when
`include_dots` is set or its name does not start with `'.'`
(`d_name[0]` of an empty name is the NUL terminator, not `'.'`). -/
def filter_dots (entries : List String) (include_dots : Bool) : List String :=
  entries.filter fun name => include_dots || !(name.data.head? = some '.')

/-- `utils::iterate_files` wired for callbacks that only observe names:
on `opendir` failure it throws a `system_error` carrying the errno; on
success it yields the filtered entry names in iteration order. -/
def iterate_files (opendirResult : Except Int (List String))
    (include_dots : Bool) : Except Error (List String) :=
  match opendirResult with
  | .error e => .error (.systemError e "Couldn't open dir")
  | .ok entries => .ok (filter_dots entries include_dots)

/-- `std::stoi(name)` (base 10): skip leading whitespace, accept an
optional sign, convert the longest digit prefix; `none` when no digit
follows (invalid argument) or the value falls outside `int`'s range
(out of range) — both are `std::logic_error`s. -/
def stoi (l : List Char) : Option Int :=
  let l1 := l.dropWhile fun c =>
    c = ' ' ∨ c = '\t' ∨ c = '\n' ∨ c = '\x0b' ∨ c = '\x0c' ∨ c = '\r'
  let signAndRest : Int × List Char :=
    match l1 with
    | '-' :: r => (-1, r)
    | '+' :: r => (1, r)
    | r => (1, r)
  let digits := signAndRest.2.takeWhile fun c => '0' ≤ c ∧ c ≤ '9'
  if digits.isEmpty then none
  else
    let v : Int :=
      signAndRest.1 * (digits.foldl (fun a c => a * 10 + (c.toNat - 48)) 0 : Nat)
    if v < -(2 ^ 31) ∨ 2 ^ 31 - 1 < v then none else some v

/-- The collection step of `utils::enumerate_numeric_files`: insert
`std::stoi(name)` into the set, skipping the name when `stoi` throws a
`std::logic_error`. -/
def collect_numeric (names : List String) : Finset Int :=
  names.foldl
    (fun files name =>
      match stoi name.data with
      | some v => insert v files
      | none => files)
    ∅

/-- `utils::enumerate_numeric_files`: iterate the directory without
dotfiles and collect the numerically named entries. -/
def enumerate_numeric_files (opendirResult : Except Int (List String)) :
    Except Error (Finset Int) :=
  (iterate_files opendirResult false).map collect_numeric

/-- `utils::get_inode`: the inode from a successful `fstatat`, else a
`system_error` carrying the errno. -/
def get_inode (statResult : Except Int Nat) : Except Error Nat :=
  match statResult with
  | .error e => .error (.systemError e "Couldn't stat file for inode")
  | .ok ino => .ok ino

/-- `PATH_MAX` of `<linux/limits.h>`. -/
def PATH_MAX : Nat := 4096

/-- `utils::readlink`: the buffer holds `PATH_MAX + 1` bytes, so
`readlinkat` stores at most the first `PATH_MAX + 1` bytes of the link
target and reports how many it stored; the string is resized to exactly
those bytes.  On failure, a `system_error` carrying the errno. -/
def readlink (readlinkatResult : Except Int String) : Except Error String :=
  match readlinkatResult with
  | .error e => .error (.systemError e "Couldn't read link")
  | .ok target => .ok (strTake target (PATH_MAX + 1))

/-- The trailing-newline trim loop of `utils::readfile`: pop the last
character while it is `'\n'`. -/
def trimTrailingNewlines : List Char → List Char
  | [] => []
  | c :: rest =>
      let r := trimTrailingNewlines rest
      if r = [] ∧ c = '\n' then [] else c :: r

/-- `utils::readfile`: `openResult` is the `open` outcome carrying the
file's content, `readErr` an errno when the single bounded `read` fails;
a successful read returns the first `min(max_bytes, size)` bytes, then
trailing newlines are trimmed when requested. -/
def readfile (openResult : Except Int String) (readErr : Option Int)
    (max_bytes : Nat) (trim_newline : Bool) : Except Error String :=
  match openResult with
  | .error e => .error (.systemError e "Couldn't open file")
  | .ok content =>
      match readErr with
      | some e => .error (.systemError e "Couldn't read file")
      | none =>
          let buffer := strTake content max_bytes
          .ok (if trim_newline then ⟨trimTrailingNewlines buffer.data⟩ else buffer)

/-- `utils::readline`: `openResult` is `none` when the `ifstream` fails
to open, else the file's lines; `std::getline` yields the first line or
fails on an empty stream.  Both failures are plain `runtime_error`s. -/
def readline (openResult : Option (List String)) : Except Error String :=
  match openResult with
  | none => .error (.runtimeError "Couldn't open file")
  | some [] => .error (.runtimeError "Couldn't read line from file")
  | some (line :: _) => .ok line

/-! ### Helper lemmas -/

/-- On delimiter-free input the split loop emits at most the pending token. -/
theorem splitGo_no_delim (d : Char) (ke : Bool) :
    ∀ (l acc : List Char), d ∉ l →
      splitGo d ke acc l = if (acc ++ l).isEmpty then [] else [acc ++ l] := by
  intro l
  induction l with
  | nil => intro acc _; simp [splitGo]
  | cons c rest ih =>
      intro acc hd
      have hc : ¬(c = d) := fun h => hd (by simp [h])
      have hrest : d ∉ rest := fun h => hd (List.mem_cons_of_mem _ h)
      have : splitGo d ke acc (c :: rest) = splitGo d ke (acc ++ [c]) rest := by
        simp [splitGo, hc]
      rw [this, ih _ hrest]
      simp

/-- With `keep_empty` the split loop never returns an empty token list
unless both the pending token and the remaining input are empty. -/
theorem splitGo_keep_ne_nil (d : Char) :
    ∀ (l acc : List Char), acc ≠ [] ∨ l ≠ [] → splitGo d true acc l ≠ [] := by
  intro l
  induction l with
  | nil =>
      intro acc h
      rcases h with h | h
      · simp [splitGo, h]
      · exact absurd rfl h
  | cons c rest ih =>
      intro acc _
      by_cases hc : c = d
      · simp [splitGo, hc]
      · have : splitGo d true acc (c :: rest) = splitGo d true (acc ++ [c]) rest := by
          simp [splitGo, hc]
        rw [this]
        exact ih _ (Or.inl (by simp))

theorem joinWith_cons (d : Char) (t : List Char) {ts : List (List Char)}
    (h : ts ≠ []) : joinWith d (t :: ts) = t ++ d :: joinWith d ts := by
  cases ts with
  | nil => exact absurd rfl h
  | cons t' ts' => rfl

/-- Core of the round-trip law: joining what the `keep_empty` split loop
produces restores the pending token followed by the input, provided the
input does not end with the delimiter. -/
theorem joinWith_splitGo (d : Char) :
    ∀ (l acc : List Char), l.getLast? ≠ some d →
      joinWith d (splitGo d true acc l) = acc ++ l := by
  intro l
  induction l with
  | nil =>
      intro acc _
      by_cases ha : acc = []
      · simp [splitGo, ha, joinWith]
      · simp [splitGo, ha, joinWith]
  | cons c rest ih =>
      intro acc hlast
      by_cases hc : c = d
      · have hrest : rest ≠ [] := by
          intro h
          rw [h] at hlast
          exact hlast (by simp [List.getLast?, hc])
        have hlast' : rest.getLast? ≠ some d := by
          cases rest with
          | nil => exact absurd rfl hrest
          | cons x xs => rw [← List.getLast?_cons_cons (a := c)]; exact hlast
        have hne : splitGo d true [] rest ≠ [] :=
          splitGo_keep_ne_nil d rest [] (Or.inr hrest)
        have : splitGo d true acc (c :: rest) = acc :: splitGo d true [] rest := by
          simp [splitGo, hc]
        rw [this, joinWith_cons d acc hne, ih [] hlast', hc]
        simp
      · have hlast' : rest.getLast? ≠ some d := by
          cases rest with
          | nil => simp
          | cons x xs => rw [← List.getLast?_cons_cons (a := c)]; exact hlast
        have : splitGo d true acc (c :: rest) = splitGo d true (acc ++ [c]) rest := by
          simp [splitGo, hc]
        rw [this, ih _ hlast']
        simp

theorem data_ne_nil_of_ne_empty {b : String} (h : b ≠ "") : b.data ≠ [] := by
  intro hd
  apply h
  cases b
  simp at hd
  simp [hd]

/-! ### C4 -/

/-- C4: `parse_ipv4_address "0100007F"` yields an IPv4-tagged address
holding the loopback address 127.0.0.1 (native little-endian packing),
and `parse_address "0100007F:0050"` yields that address paired with
port 80, the port being decoded in hexadecimal within the 16-bit range. -/
theorem parse_address_loopback :
    parse_ipv4_address "0100007F" = .ok (.v4 (ipv4_of_octets 127 0 0 1)) ∧
    parse_address "0100007F:0050" = .ok (.v4 (ipv4_of_octets 127 0 0 1), 80) ∧
    stot "0050" 16 u16max = .ok 80 := by decide

/-! ### C5 -/

/-- C5 counterexample: splitting the empty buffer (which trivially
contains no delimiter) with `keep_empty = false` yields the empty
sequence, not the one-element sequence holding the empty buffer. -/
theorem split_empty_buffer_not_singleton :
    split "" ',' false = [] ∧ split "" ',' false ≠ [""] := by decide

/-- C5 (amended): for every delimiter `d` and every NON-EMPTY buffer `b`
containing no occurrence of `d`, `split b d false` is the one-element
sequence `[b]`; the empty buffer instead yields the empty sequence. -/
theorem split_no_delim_singleton :
    (∀ (b : String) (d : Char), b ≠ "" → d ∉ b.data → split b d false = [b]) ∧
    (∀ d : Char, split "" d false = []) := by
  constructor
  · intro b d hb hd
    have hdata : b.data ≠ [] := data_ne_nil_of_ne_empty hb
    unfold split
    rw [splitGo_no_delim d false b.data [] hd]
    simp [List.isEmpty_iff, hdata]
  · intro d; rfl

/-- C5 witness. -/
theorem split_no_delim_singleton_witness :
    split "abc" ',' false = ["abc"] :=
  split_no_delim_singleton.1 "abc" ',' (by decide) (by decide)

/-! ### C6 -/

/-- C6: for every buffer `b` and delimiter `d`, if `b` neither starts
nor ends with `d`, joining `split b d true` with `d` as separator
reproduces `b` exactly. -/
theorem split_join_roundtrip :
    ∀ (b : String) (d : Char), b.data.head? ≠ some d →
      b.data.getLast? ≠ some d → joinStrings d (split b d true) = b := by
  intro b d _ hlast
  unfold joinStrings split
  rw [List.map_map]
  have hcomp : (String.data ∘ String.mk) = id := rfl
  rw [hcomp, List.map_id, joinWith_splitGo d b.data [] hlast]
  rfl

/-- C6 witness. -/
theorem split_join_roundtrip_witness :
    joinStrings ',' (split "a,,b" ',' true) = "a,,b" :=
  split_join_roundtrip "a,,b" ',' (by decide) (by decide)

/-! ### C2 -/

/-- C2 counterexample: `"0100007F:0050:"` contains two colons, yet
`parse_address` succeeds on it (the split drops the trailing empty
token), so a token with two or more colons does not always raise a
parse error. -/
theorem parse_address_trailing_colon_accepted :
    "0100007F:0050:".data.count ':' = 2 ∧
    parse_address "0100007F:0050:" = .ok (.v4 (ipv4_of_octets 127 0 0 1), 80) := by
  decide

/-- C2 (amended): `parse_address` raises a parse error whenever
splitting its token on `':'` yields other than exactly two parts — in
particular for every token containing no colon (a trailing delimiter
contributes no part, so e.g. `"addr:port:"` still splits into two parts
and is accepted) — and, when exactly two parts result, raises a parse
error whenever the address part's length is neither 8 nor 32. -/
theorem parse_address_error_conditions :
    (∀ s : String, (split s ':' true).length ≠ 2 →
      parse_address s =
        .error (.parserError "Corrupted net socket address - Unexpected token counts" s)) ∧
    (∀ s : String, ':' ∉ s.data →
      parse_address s =
        .error (.parserError "Corrupted net socket address - Unexpected token counts" s)) ∧
    (∀ (s ip_str port_str : String), split s ':' true = [ip_str, port_str] →
      ip_str.length ≠ 8 → ip_str.length ≠ 32 →
      parse_address s =
        .error (.parserError "Corrupted net socket address - Bad length" s)) := by
  have htwo : ∀ (s ip_str port_str : String),
      split s ':' true = [ip_str, port_str] →
      parse_address s =
        (if ip_str.length = 8 then parse_ipv4_address ip_str
         else if ip_str.length = 4 * 8 then parse_ipv6_address ip_str
         else .error (.parserError "Corrupted net socket address - Bad length"
           s)).bind fun addr =>
          (stot port_str 16 u16max).map fun port => (addr, port) := by
    intro s ip_str port_str hs
    unfold parse_address
    rw [hs]
  have hcount : ∀ s : String, (split s ':' true).length ≠ 2 →
      parse_address s =
        .error (.parserError "Corrupted net socket address - Unexpected token counts" s) := by
    intro s h
    unfold parse_address
    rcases hs : split s ':' true with _ | ⟨a, _ | ⟨b, _ | ⟨c, rest⟩⟩⟩
    · rfl
    · rfl
    · simp [hs] at h
    · rfl
  refine ⟨hcount, ?_, ?_⟩
  · intro s hd
    apply hcount
    unfold split
    rw [splitGo_no_delim ':' true s.data [] hd]
    by_cases h : s.data.isEmpty <;> simp [h]
  · intro s ip_str port_str hs h8 h32
    have h32' : ip_str.length ≠ 4 * 8 := by
      rw [show (4 : Nat) * 8 = 32 from rfl]; exact h32
    rw [htwo s ip_str port_str hs, if_neg h8, if_neg h32']
    rfl

/-- C2 witness. -/
theorem parse_address_error_conditions_witness :
    parse_address "noColonsHere" =
      .error (.parserError "Corrupted net socket address - Unexpected token counts"
        "noColonsHere") ∧
    parse_address "ABCDE:0050" =
      .error (.parserError "Corrupted net socket address - Bad length" "ABCDE:0050") :=
  ⟨parse_address_error_conditions.2.1 "noColonsHere" (by decide),
   parse_address_error_conditions.2.2 "ABCDE:0050" "ABCDE" "0050"
     (by decide) (by decide) (by decide)⟩

/-! ### C3 -/

/-- C3: `parse_memory_size` raises a parse error carrying the offending
input whenever splitting on whitespace yields other than exactly two
tokens (so `"1024kB"` fails); `"1024 kB"` succeeds with magnitude 1024
and unit token `"kB"`; and a malformed-character failure and an
out-of-range failure of the magnitude decoder map to two distinguishable
parse errors, each carrying the offending input. -/
theorem parse_memory_size_contract :
    (∀ v : String, (split v ' ' true).length ≠ 2 →
      parse_memory_size v =
        .error (.parserError "Corrupted memory size - Unexpected tokens count" v)) ∧
    (parse_memory_size "1024 kB" = .ok 1024 ∧
      split "1024 kB" ' ' true = ["1024", "kB"]) ∧
    (∀ (v size_str units_str : String), split v ' ' true = [size_str, units_str] →
      stot size_str 10 u64max = .error (.invalidArgument size_str) →
      parse_memory_size v =
        .error (.parserError "Corrupted memory size - Invalid argument" v)) ∧
    (∀ (v size_str units_str : String), split v ' ' true = [size_str, units_str] →
      stot size_str 10 u64max = .error (.outOfRange size_str) →
      parse_memory_size v =
        .error (.parserError "Corrupted memory size - Out of range" v)) := by
  have htwo : ∀ (v size_str units_str : String),
      split v ' ' true = [size_str, units_str] →
      parse_memory_size v =
        match stot size_str 10 u64max with
        | .ok n => .ok n
        | .error (.invalidArgument _) =>
            .error (.parserError "Corrupted memory size - Invalid argument" v)
        | .error (.outOfRange _) =>
            .error (.parserError "Corrupted memory size - Out of range" v)
        | .error e => .error e := by
    intro v size_str units_str hs
    unfold parse_memory_size
    rw [hs]
  refine ⟨?_, by decide, ?_, ?_⟩
  · intro v h
    unfold parse_memory_size
    rcases hs : split v ' ' true with _ | ⟨a, _ | ⟨b, _ | ⟨c, rest⟩⟩⟩
    · rfl
    · rfl
    · simp [hs] at h
    · rfl
  · intro v size_str units_str hs hstot
    rw [htwo v size_str units_str hs, hstot]
  · intro v size_str units_str hs hstot
    rw [htwo v size_str units_str hs, hstot]

/-- C3 witness. -/
theorem parse_memory_size_contract_witness :
    parse_memory_size "1024kB" =
      .error (.parserError "Corrupted memory size - Unexpected tokens count" "1024kB") ∧
    parse_memory_size "12a kB" =
      .error (.parserError "Corrupted memory size - Invalid argument" "12a kB") ∧
    parse_memory_size "99999999999999999999 kB" =
      .error (.parserError "Corrupted memory size - Out of range"
        "99999999999999999999 kB") :=
  ⟨parse_memory_size_contract.1 "1024kB" (by decide),
   parse_memory_size_contract.2.2.1 "12a kB" "12a" "kB" (by decide) (by decide),
   parse_memory_size_contract.2.2.2 "99999999999999999999 kB" "99999999999999999999"
     "kB" (by decide) (by decide)⟩

/-! ### C1 -/

theorem mem_collect_numeric_foldl (names : List String) :
    ∀ (acc : Finset Int) (n : Int),
      (n ∈ names.foldl
        (fun files name =>
          match stoi name.data with
          | some v => insert v files
          | none => files)
        acc) ↔ n ∈ acc ∨ ∃ name ∈ names, stoi name.data = some n := by
  induction names with
  | nil => simp
  | cons nm rest ih =>
      intro acc n
      rw [List.foldl_cons]
      cases h : stoi nm.data with
      | none =>
          simp only [h, ih, List.exists_mem_cons_iff, h]
          simp
      | some v =>
          simp only [h, ih, List.exists_mem_cons_iff, h, Finset.mem_insert,
            Option.some_inj]
          constructor
          · rintro (⟨rfl | hacc⟩ | hrest)
            · exact Or.inr (Or.inl rfl)
            · exact Or.inl hacc
            · exact Or.inr (Or.inr hrest)
          · rintro (hacc | rfl | hrest)
            · exact Or.inl (Or.inr hacc)
            · exact Or.inl (Or.inl rfl)
            · exact Or.inr hrest

/-- C1 counterexample: over a directory containing exactly the entries
`"1"`, `"2"`, `"foo"` and `"3bar"`, `enumerate_numeric_files` returns
`{1, 2, 3}` — the name `"3bar"` contributes 3 through `std::stoi`'s
longest-digit-prefix parse — and not the claimed `{1, 2}`. -/
theorem enumerate_numeric_files_spec_example_fails :
    enumerate_numeric_files (.ok ["1", "2", "foo", "3bar"]) = .ok {1, 2, 3} ∧
    enumerate_numeric_files (.ok ["1", "2", "foo", "3bar"]) ≠
      .ok ({1, 2} : Finset Int) := by decide

/-- C1 (amended): over every readable directory,
`enumerate_numeric_files` returns the set of integers `n` such that some
entry name not starting with `'.'` yields `n` under `std::stoi` — the
longest digit prefix after optional whitespace and an optional sign,
within `int` range; a name with no such prefix, or one whose value is
out of range, is silently skipped.  Over `{"1", "2", "foo", "3bar"}`
it returns `{1, 2, 3}`. -/
theorem enumerate_numeric_files_characterization :
    (∀ (entries : List String) (n : Int),
      (∃ S, enumerate_numeric_files (.ok entries) = .ok S ∧ n ∈ S) ↔
        ∃ name ∈ entries,
          ¬(name.data.head? = some '.') ∧ stoi name.data = some n) ∧
    enumerate_numeric_files (.ok ["1", "2", "foo", "3bar"]) = .ok {1, 2, 3} := by
  constructor
  · intro entries n
    have hred : enumerate_numeric_files (.ok entries) =
        .ok (collect_numeric (filter_dots entries false)) := rfl
    rw [hred]
    simp only [Except.ok.injEq, exists_eq_left']
    rw [collect_numeric, mem_collect_numeric_foldl]
    simp only [Finset.not_mem_empty, false_or]
    constructor
    · rintro ⟨name, hmem, hstoi⟩
      rw [filter_dots, List.mem_filter] at hmem
      refine ⟨name, hmem.1, ?_, hstoi⟩
      simpa using hmem.2
    · rintro ⟨name, hmem, hdot, hstoi⟩
      refine ⟨name, ?_, hstoi⟩
      rw [filter_dots, List.mem_filter]
      exact ⟨hmem, by simpa using hdot⟩
  · decide

/-! ### C7 -/

/-- C7 counterexample: `readline`'s open failure — an operating-system
failure of the core — is a plain runtime error that carries a
description of the attempted operation but no underlying OS error
code. -/
theorem readline_failure_lacks_os_code :
    readline none = .error (.runtimeError "Couldn't open file") ∧
    (Error.runtimeError "Couldn't open file").carriesOsCode = false := by decide

/-- C7 (amended): every operating-system failure raised by
`iterate_files`, `get_inode`, `readlink` and `readfile` carries the
underlying OS error code together with a description of the attempted
operation; `readline`'s failures instead carry only a description,
without the OS error code. -/
theorem os_failure_payloads :
    (∀ (e : Int) (inc : Bool),
      iterate_files (.error e) inc = .error (.systemError e "Couldn't open dir")) ∧
    (∀ e : Int,
      get_inode (.error e) = .error (.systemError e "Couldn't stat file for inode")) ∧
    (∀ e : Int, readlink (.error e) = .error (.systemError e "Couldn't read link")) ∧
    (∀ (e : Int) (re : Option Int) (mb : Nat) (tn : Bool),
      readfile (.error e) re mb tn = .error (.systemError e "Couldn't open file")) ∧
    (∀ (e : Int) (content : String) (mb : Nat) (tn : Bool),
      readfile (.ok content) (some e) mb tn =
        .error (.systemError e "Couldn't read file")) ∧
    (∀ (e : Int) (what : String), (Error.systemError e what).carriesOsCode = true) ∧
    readline none = .error (.runtimeError "Couldn't open file") ∧
    readline (some []) = .error (.runtimeError "Couldn't read line from file") ∧
    (∀ what : String, (Error.runtimeError what).carriesOsCode = false) :=
  ⟨fun _ _ => rfl, fun _ => rfl, fun _ => rfl, fun _ _ _ _ => rfl,
   fun _ _ _ _ => rfl, fun _ _ => rfl, rfl, rfl, fun _ => rfl⟩

/-! ### C8 -/

theorem trimTrailingNewlines_length_le :
    ∀ l : List Char, (trimTrailingNewlines l).length ≤ l.length := by
  intro l
  induction l with
  | nil => simp [trimTrailingNewlines]
  | cons c rest ih =>
      simp only [trimTrailingNewlines]
      split_ifs with h
      · simp
      · simpa using ih

theorem trimTrailingNewlines_getLast?_ne :
    ∀ l : List Char, (trimTrailingNewlines l).getLast? ≠ some '\n' := by
  intro l
  induction l with
  | nil => simp [trimTrailingNewlines]
  | cons c rest ih =>
      simp only [trimTrailingNewlines]
      split_ifs with h
      · simp
      · by_cases hr : trimTrailingNewlines rest = []
        · have hc : c ≠ '\n' := fun hcn => h ⟨hr, hcn⟩
          rw [hr]
          simp [hc]
        · cases hrl : trimTrailingNewlines rest with
          | nil => exact absurd hrl hr
          | cons x xs =>
              rw [List.getLast?_cons_cons, ← hrl]
              exact ih

/-- C8: `readfile` returns at most `max_bytes` bytes taken from the
start of the file; a file holding no more than `max_bytes` bytes yields
its actual content without error; when `trim_newline` is set the result
never ends in a newline (trailing newlines are removed repeatedly); and
content ending in `"\n\n"` is fully stripped. -/
theorem readfile_bounded_and_trimmed :
    (∀ (content : String) (mb : Nat) (tn : Bool),
      ∃ s, readfile (.ok content) none mb tn = .ok s ∧ s.data.length ≤ mb) ∧
    (∀ (content : String) (mb : Nat), content.data.length ≤ mb →
      readfile (.ok content) none mb false = .ok content) ∧
    (∀ (content : String) (mb : Nat),
      ∃ s, readfile (.ok content) none mb true = .ok s ∧
        s.data.getLast? ≠ some '\n') ∧
    readfile (.ok "ab\n\n") none 100 true = .ok "ab" := by
  refine ⟨?_, ?_, ?_, by decide⟩
  · intro content mb tn
    refine ⟨_, rfl, ?_⟩
    cases tn
    · show (content.data.take mb).length ≤ mb
      rw [List.length_take]
      exact min_le_left _ _
    · show (trimTrailingNewlines (content.data.take mb)).length ≤ mb
      calc (trimTrailingNewlines (content.data.take mb)).length
          ≤ (content.data.take mb).length := trimTrailingNewlines_length_le _
        _ ≤ mb := by rw [List.length_take]; exact min_le_left _ _
  · intro content mb hle
    show Except.ok (strTake content mb) = Except.ok content
    congr 1
    show (⟨content.data.take mb⟩ : String) = content
    rw [List.take_of_length_le hle]
  · intro content mb
    exact ⟨_, rfl, trimTrailingNewlines_getLast?_ne _⟩

/-- C8 witness. -/
theorem readfile_bounded_and_trimmed_witness :
    readfile (.ok "xy") none 10 false = .ok "xy" :=
  readfile_bounded_and_trimmed.2.1 "xy" 10 (by decide)

/-! ### C9 -/

/-- C9: `ensure_dir_terminator` on the empty path reaches the
out-of-bounds `back()` access (modelled as `none`); on every non-empty
path that branch is unreachable and the result ends with `'/'`. -/
theorem ensure_dir_terminator_spec :
    ensure_dir_terminator "" = none ∧
    ∀ p : String, p ≠ "" → ∃ r, ensure_dir_terminator p = some r ∧
      r.data.getLast? = some '/' := by
  refine ⟨rfl, ?_⟩
  intro p hp
  have hd : p.data ≠ [] := data_ne_nil_of_ne_empty hp
  cases hlast : p.data.getLast? with
  | none => exact absurd (List.getLast?_eq_none_iff.mp hlast) hd
  | some c =>
      unfold ensure_dir_terminator
      rw [hlast]
      show ∃ r, (if c ≠ '/' then some (p ++ "/") else some p) = some r ∧
        r.data.getLast? = some '/'
      by_cases hc : c = '/'
      · rw [if_neg (by simp [hc])]
        exact ⟨p, rfl, by rw [hlast, hc]⟩
      · rw [if_pos hc]
        refine ⟨p ++ "/", rfl, ?_⟩
        rw [String.data_append]
        exact List.getLast?_concat _

/-- C9 witness. -/
theorem ensure_dir_terminator_spec_witness :
    ∃ r, ensure_dir_terminator "ab" = some r ∧ r.data.getLast? = some '/' :=
  ensure_dir_terminator_spec.2 "ab" (by decide)

/-! ### C10 -/

/-- C10: for every link target longer than `PATH_MAX + 1` bytes,
`readlink` returns exactly the first `PATH_MAX + 1` bytes of the target
with no error, and the truncated result is indistinguishable from
reading a link whose complete target is those first `PATH_MAX + 1`
bytes. -/
theorem readlink_truncates_silently :
    ∀ target : String, PATH_MAX + 1 < target.data.length →
      readlink (.ok target) = .ok (strTake target (PATH_MAX + 1)) ∧
      (strTake target (PATH_MAX + 1)).data.length = PATH_MAX + 1 ∧
      readlink (.ok target) = readlink (.ok (strTake target (PATH_MAX + 1))) := by
  intro t ht
  refine ⟨rfl, ?_, ?_⟩
  · show (t.data.take (PATH_MAX + 1)).length = PATH_MAX + 1
    rw [List.length_take]
    omega
  · show Except.ok (strTake t (PATH_MAX + 1)) =
      .ok (strTake (strTake t (PATH_MAX + 1)) (PATH_MAX + 1))
    congr 1
    show (⟨t.data.take (PATH_MAX + 1)⟩ : String) =
      ⟨(t.data.take (PATH_MAX + 1)).take (PATH_MAX + 1)⟩
    rw [List.take_take]
    simp

/-- C10 witness: a 4098-byte link target is truncated to 4097 bytes. -/
theorem readlink_truncates_silently_witness :
    readlink (.ok (String.mk (List.replicate 4098 'a'))) =
      .ok (strTake (String.mk (List.replicate 4098 'a')) (PATH_MAX + 1)) ∧
    (strTake (String.mk (List.replicate 4098 'a'))
      (PATH_MAX + 1)).data.length = PATH_MAX + 1 ∧
    readlink (.ok (String.mk (List.replicate 4098 'a'))) =
      readlink (.ok (strTake (String.mk (List.replicate 4098 'a')) (PATH_MAX + 1))) :=
  readlink_truncates_silently (String.mk (List.replicate 4098 'a'))
    (by
      show PATH_MAX + 1 < (List.replicate 4098 'a').length
      rw [List.length_replicate]
      decide)

end Pfs
